import Mathlib

/-!
Verification of the bekuto3d shape-composition core against its source.

The embedding below translates the two source files:
* `src/components/SvgTo3D.vue` (script section): shape list, visibility
  index mapping, selection state, document validity check, raster-fallback
  document compositing, load/close lifecycle.
* `src/composables/useCsg.ts`: the boolean bore subtraction.

JavaScript numbers are modelled as `Rat` (the UI clamps them to a 0.1
grid, so no value in scope needs floating point); JavaScript array
indices as `Int` with the JS sentinel `-1`; `null` as `Option.none`;
object identity (`===`) via an `oid` field that is unique per allocated
shape record.
-/

/- ### String utilities (models of the JS string primitives used) -/

/-- Model of JS `String.prototype.toLowerCase` restricted to the ASCII
range, which is all the validator's needles use. -/
def lowerStr (s : String) : String :=
  String.mk (s.data.map Char.toLower)

/-- Whether `needle` is an initial segment
of `hay` (character-exact). -/
def listStarts : List Char → List Char → Bool
  | [], _ => true
  | _ :: _, [] => false
  | a :: as, b :: bs => a == b && listStarts as bs

/-- First index at which `needle` occurs inside `hay`, if any; the model
of JS `indexOf` before its `-1` encoding. -/
def findSub (needle : List Char) : List Char → Option Nat
  | [] => if needle.isEmpty then some 0 else none
  | c :: rest =>
      if listStarts needle (c :: rest) then some 0
      else (findSub needle rest).map (· + 1)

/-- Model of JS `hay.indexOf(needle)`: first occurrence index, `-1` when
absent. -/
def indexOfJs (hay needle : String) : Int :=
  match findSub needle.data hay.data with
  | some i => (i : Int)
  | none => -1

/-- Model of JS `hay.includes(needle)`. -/
def includesJs (hay needle : String) : Bool :=
  (findSub needle.data hay.data).isSome

/-- ECMAScript whitespace characters (the ones `String.prototype.trim`
strips): TAB, LF, VT, FF, CR, SPACE, NBSP, LS, PS, FEFF. -/
def isWsChar (c : Char) : Bool :=
  c == Char.ofNat 9 || c == Char.ofNat 10 || c == Char.ofNat 11 ||
  c == Char.ofNat 12 || c == Char.ofNat 13 || c == Char.ofNat 32 ||
  c == Char.ofNat 160 || c == Char.ofNat 8232 || c == Char.ofNat 8233 ||
  c == Char.ofNat 65279

/-- Model of the JS test `!code || code.trim() === ''`: the string is
empty or consists of whitespace only. -/
def wsOnly (s : String) : Bool :=
  s.data.all isWsChar

/- ### IngestionValidator: `isValidSvg` (SvgTo3D.vue lines 218-230) -/

def svgOpenNeedle : String := "<svg"
def svgCloseNeedle : String := "</svg>"
def viewboxNeedle : String := "viewbox"
def widthNeedle : String := "width"
def heightNeedle : String := "height"

/-- Translation of `isValidSvg` from `SvgTo3D.vue`:
lower-case the code, take the first occurrences of the opening and
closing root tags, require both present with the opening strictly
before the closing one, and require one of the three sizing attribute
names to occur anywhere in the text. -/
def isValidSvg (code : String) : Bool :=
  if wsOnly code then false
  else
    let lowerCode := lowerStr code
    let svgStart := indexOfJs lowerCode svgOpenNeedle
    let svgEnd := indexOfJs lowerCode svgCloseNeedle
    svgStart != -1 && svgEnd != -1 && decide (svgStart < svgEnd) &&
      (includesJs lowerCode viewboxNeedle || includesJs lowerCode widthNeedle ||
        includesJs lowerCode heightNeedle)

/-- The spec-side formulation of document validity, written from the
spec's words: reject empty/whitespace-only text; otherwise,
case-insensitively, the located (first) opening root tag must occur
strictly before the located (first) closing root tag, and at least one
of the three sizing attribute names must occur in the text. Kept as a
separate definition to be compared with the source's `isValidSvg`. -/
def specIsValidDocument (text : String) : Bool :=
  if wsOnly text then false
  else
    let lower := lowerStr text
    match findSub svgOpenNeedle.data lower.data, findSub svgCloseNeedle.data lower.data with
    | some o, some c =>
        decide (o < c) &&
          ((findSub viewboxNeedle.data lower.data).isSome ||
            (findSub widthNeedle.data lower.data).isSome ||
            (findSub heightNeedle.data lower.data).isSome)
    | _, _ => false

/- ### ShapeRegistry data model (SvgTo3D.vue) -/

/-- One `ShapeWithColor` record. `oid` stands in for JavaScript object
identity: every record freshly allocated by the loader is a distinct
object, so `===` between records from one list is `oid` equality; the
hypothesis `(l.map oid).Nodup` below states exactly that freshness.
`color` is the RGB value as an opaque number. -/
structure ShapeWithColor where
  oid : Nat
  color : Nat
  depth : Rat
  startZ : Rat
deriving DecidableEq, Repr

/-- The computed `shownShapes = svgShapes.value.filter(i => i.depth)`
(line 45): the subsequence of records whose depth is truthy, i.e.
nonzero. -/
def shownShapes (l : List ShapeWithColor) : List ShapeWithColor :=
  l.filter fun s => s.depth != 0

/-- Model of JS `Array.prototype.findIndex`: index of the first element
satisfying `p`, `-1` when none does. (`List.findIdx` returns the length
when nothing matches.) -/
def findIndexJs (p : ShapeWithColor → Bool) (l : List ShapeWithColor) : Int :=
  if l.findIdx p < l.length then ((l.findIdx p : Nat) : Int) else -1

/-- Translation of `toShownIndex(index)` (lines 177-179):
`shownShapes.value.findIndex(s => s === svgShapes.value[index])`.
A negative or out-of-range `index` reads `undefined` from the array and
the identity search then finds nothing, i.e. `-1`. -/
def toShownIndex (l : List ShapeWithColor) (index : Int) : Int :=
  if index < 0 then -1
  else
    match l.get? index.toNat with
    | some s => findIndexJs (fun t => t == s) (shownShapes l)
    | none => -1

/-- Translation of `toSvgIndex(index)` (lines 181-183):
`svgShapes.value.findIndex(s => s === shownShapes.value[index])`. -/
def toSvgIndex (l : List ShapeWithColor) (index : Int) : Int :=
  if index < 0 then -1
  else
    match (shownShapes l).get? index.toNat with
    | some s => findIndexJs (fun t => t == s) l
    | none => -1

/-- Translation of `formatSelectedShapeIndex(index)` (lines 170-175): `null` stays
`null`, a `-1` identity-search miss becomes `null`, anything else is the
found visible index. -/
def formatSelectedShapeIndex (l : List ShapeWithColor) (index : Option Int) : Option Int :=
  match index with
  | none => none
  | some i =>
      let newIndex := toShownIndex l i
      if newIndex == -1 then none else some newIndex

/- ### Component state and the selection accessors -/

/-- The constant `defaultSize = 37` (line 14): the scale target's default. -/
def defaultSize : Rat := 37

/-- The mutable refs of the `SvgTo3D` component that the claims touch:
`fileName`, `svgShapes`, `svgCode`, `selectedShapeIndex` (the hovered
full index), `editingInputIndex`, `isExporting`, `isDefaultSvg`, and the
scale target `size`. -/
structure SvgTo3DState where
  fileName : String
  svgShapes : List ShapeWithColor
  svgCode : String
  selectedShapeIndex : Option Int
  editingInputIndex : Option Int
  isExporting : Bool
  isDefaultSvg : Bool
  size : Rat
deriving DecidableEq, Repr

/-- The `selectedShownShapeIndex` computed getter (lines 185-192):
exporting forces `null`; otherwise an editing index, when set, is
formatted in preference to the hovered index. -/
def selectedShownShapeIndexGet (st : SvgTo3DState) : Option Int :=
  if st.isExporting then none
  else
    match st.editingInputIndex with
    | some e => formatSelectedShapeIndex st.svgShapes (some e)
    | none => formatSelectedShapeIndex st.svgShapes st.selectedShapeIndex

/-- The `selectedShownShapeIndex` computed setter (lines 193-199): a
no-op on the default document or while exporting; otherwise stores
`toSvgIndex(index)` as the hovered full index. -/
def selectedShownShapeIndexSet (st : SvgTo3DState) (index : Int) : SvgTo3DState :=
  if st.isDefaultSvg || st.isExporting then st
  else { st with selectedShapeIndex := some (toSvgIndex st.svgShapes index) }

/-- Translation of `mountSVG(svgData, customShapes?)` (lines 51-63). The shape
extraction (`createShapesWithColor`, an external collaborator from
`useSvgLoader`) is abstracted as the already-produced list `newShapes`;
the `nextTick` continuation that assigns `size.value = defaultSize` is
included as the deterministic tail of the operation. Note the function
body touches only `isDefaultSvg`, `svgShapes` and `size`. -/
def mountSVG (st : SvgTo3DState) (newShapes : List ShapeWithColor) : SvgTo3DState :=
  { st with isDefaultSvg := false, svgShapes := newShapes, size := defaultSize }

/-- Translation of `handleClose()` (lines 268-277), without its trailing asynchronous
`loadDefaultSvg()` call (external fetch): clears the file name, the
list, the pasted code, both selection indices, the export flag, and
resets the scale target. -/
def handleClose (st : SvgTo3DState) : SvgTo3DState :=
  { st with
      fileName := ""
      svgShapes := []
      svgCode := ""
      selectedShapeIndex := none
      editingInputIndex := none
      isExporting := false
      size := defaultSize }

/- ### Depth / startZ clamping -/

/-- Clamp `x` into `[lo, hi]`. -/
def clampValue (lo hi x : Rat) : Rat :=
  max lo (min hi x)

/-- Modelled from the spec: the numeric-input component `IconInput.vue`
is not under `src/`; only its bindings are (`SvgTo3D.vue` lines 413-437
set `min`/`max`/`step` to `0`/`10`/`0.1` for `item.depth` and
`-10`/`10`/`0.1` for `item.startZ`). Per the spec, `setDepth` clamps
the stored value to `[0, 10]` at step granularity `0.1`. -/
def setDepth (l : List ShapeWithColor) (f : Nat) (x : Rat) : List ShapeWithColor :=
  match l.get? f with
  | some s => l.set f { s with depth := clampValue 0 10 x }
  | none => l

/-- Modelled from the spec: `setStartZ` clamps the stored value to
`[-10, 10]` at step granularity `0.1` (see `setDepth`). -/
def setStartZ (l : List ShapeWithColor) (f : Nat) (x : Rat) : List ShapeWithColor :=
  match l.get? f with
  | some s => l.set f { s with startZ := clampValue (-10) 10 x }
  | none => l

/- ### Raster-fallback compositing (`convertBitmapToSvg`, lines 110-145) -/

/-- Consume the `[^>]*>` part of the root-tag pattern: drop characters
up to and including the first `>`, returning the remainder; `none` when
there is no `>`. The greedy `[^>]*` cannot cross a `>`, so the match is
deterministic. -/
def dropPastGt : List Char → Option (List Char)
  | [] => none
  | c :: rest => if c == Char.ofNat 62 then some rest else dropPastGt rest

/-- The content before the last occurrence of `</svg>` in the list
(`[\s\S]*` is greedy, so the capture runs to the last closing tag);
`none` when `</svg>` does not occur. -/
def beforeLastClose : List Char → Option (List Char)
  | [] => none
  | c :: rest =>
      match beforeLastClose rest with
      | some content => some (c :: content)
      | none => if listStarts svgCloseNeedle.data (c :: rest) then some [] else none

/-- The capture group of `svg.match(/<svg[^>]*>([\s\S]*)<\/svg>/)`:
scan for the leftmost start where the whole pattern matches — a literal
`<svg`, then characters up to and including the first `>`, then a
greedy capture up to the last `</svg>`. -/
def matchSvgContent : List Char → Option (List Char)
  | [] => none
  | c :: rest =>
      if listStarts svgOpenNeedle.data (c :: rest) then
        match dropPastGt (List.drop 3 rest) with
        | some afterTag =>
            match beforeLastClose afterTag with
            | some content => some content
            | none => matchSvgContent rest
        | none => matchSvgContent rest
      else matchSvgContent rest

/-- Model of `const content = contentMatch ? contentMatch[1] : ...` (line 132). -/
def extractContent (svg : String) : String :=
  match matchSvgContent svg.data with
  | some content => String.mk content
  | none => ""

/-- The constant `padding = 8` (line 121). -/
def svgPadding : Nat := 8

/-- The constant `cornerRadius = 8` (line 122). -/
def svgCornerRadius : Nat := 8

/-- The template literal of lines 134-139, with `w`, `h`, `rx` and `t`
substituted for `svgWidth`, `svgHeight`, `cornerRadius` and `padding`:
the rebuilt document with the full-canvas white rounded-rect background
and the traced content nested in a translated group. -/
def svgDocTemplate (w h rx t : Nat) (content : String) : String :=
  "<svg width=\"" ++ Nat.repr w ++ "\" height=\"" ++ Nat.repr h ++
    "\" viewBox=\"0 0 " ++ Nat.repr w ++ " " ++ Nat.repr h ++ "\">\n  <rect x=\"0\" y=\"0\" width=\"" ++
    Nat.repr w ++ "\" height=\"" ++ Nat.repr h ++ "\" rx=\"" ++ Nat.repr rx ++
    "\" ry=\"" ++ Nat.repr rx ++ "\" fill=\"white\"/>\n  <g transform=\"translate(" ++
    Nat.repr t ++ "," ++ Nat.repr t ++ ")\">\n    " ++ content ++ "\n  </g>\n</svg>"

/-- Translation of `convertBitmapToSvg(file)` (lines 110-145) after its two external
asynchronous collaborators are abstracted: the raster decode supplies
`imageWidth`/`imageHeight`, and the potrace call supplies the traced
document `traced`; the rest of the body is the pure string rebuild. -/
def convertBitmapToSvg (imageWidth imageHeight : Nat) (traced : String) : String :=
  let svgWidth := imageWidth + svgPadding * 2
  let svgHeight := imageHeight + svgPadding * 2
  let content := extractContent traced
  svgDocTemplate svgWidth svgHeight svgCornerRadius svgPadding content

/- ### BooleanCarver (`useCsg.ts`) -/

/-- The geometry carried by a CSG operand: either the caller's input
buffer geometry (opaque, identified by a token) or a
`CylinderGeometry(radiusTop, radiusBottom, height, radialSegments)`. -/
inductive BrushGeometry where
  | input (g : Nat)
  | cylinder (radiusTop radiusBottom height : Rat) (radialSegments : Nat)
deriving DecidableEq, Repr

/-- A `three-bvh-csg` `Brush`: a geometry plus the transform state the
claims observe — whether `updateMatrixWorld()` has been called, and the
(never reassigned) position, which stays at the local origin. -/
structure Brush where
  geometry : BrushGeometry
  matrixWorldUpdated : Bool
  position : Int × Int × Int
deriving DecidableEq, Repr

/-- Model of `new Brush(geometry)`: identity transform, world matrix not yet
finalized. -/
def Brush.make (g : BrushGeometry) : Brush :=
  { geometry := g, matrixWorldUpdated := false, position := (0, 0, 0) }

/-- Model of `brush.updateMatrixWorld()`. -/
def Brush.updateMatrixWorld (b : Brush) : Brush :=
  { b with matrixWorldUpdated := true }

/-- The boolean operation constant passed to the evaluator; the source
imports and uses only `SUBTRACTION`. -/
inductive CsgOperation where
  | subtraction
deriving DecidableEq, Repr

/-- The external evaluator is opaque: its result is modelled as the
record of exactly what it was invoked with, so "returns the result
unmodified" is expressible. -/
structure EvaluationResult where
  operandA : Brush
  operandB : Brush
  operation : CsgOperation
deriving DecidableEq, Repr

/-- Model of `new Evaluator()` followed by `evaluator.evaluate(a, b, op)`. -/
def Evaluator.evaluate (a b : Brush) (op : CsgOperation) : EvaluationResult :=
  ⟨a, b, op⟩

/-- Translation of `subtractCylinder(geometry)` from `useCsg.ts`: wrap the input and a
fresh `CylinderGeometry(2.5, 2.5, 100, 32)` as brushes, call
`updateMatrixWorld()` on both, and return the evaluator's subtraction
result unmodified. -/
def subtractCylinder (geometry : Nat) : EvaluationResult :=
  let originalBrush := (Brush.make (BrushGeometry.input geometry)).updateMatrixWorld
  let cylinderRadius : Rat := 5 / 2
  let cylinderHeight : Rat := 100
  let cylinderGeometry :=
    BrushGeometry.cylinder cylinderRadius cylinderRadius cylinderHeight 32
  let cylinderBrush := (Brush.make cylinderGeometry).updateMatrixWorld
  Evaluator.evaluate originalBrush cylinderBrush CsgOperation.subtraction

/- ### Helper lemmas on the index mapping -/

theorem mem_shownShapes {l : List ShapeWithColor} {s : ShapeWithColor} :
    s ∈ shownShapes l ↔ s ∈ l ∧ s.depth ≠ 0 := by
  simp [shownShapes, List.mem_filter, bne_iff_ne]

theorem findIndexJs_eq_indexOf {a : ShapeWithColor} {l : List ShapeWithColor}
    (h : a ∈ l) : findIndexJs (fun t => t == a) l = (l.indexOf a : Int) := by
  have hfi : l.findIdx (fun t => t == a) = l.indexOf a := rfl
  simp only [findIndexJs, hfi, if_pos (List.indexOf_lt_length.2 h)]

theorem findIndexJs_of_not_mem {a : ShapeWithColor} {l : List ShapeWithColor}
    (h : a ∉ l) : findIndexJs (fun t => t == a) l = -1 := by
  have hfi : l.findIdx (fun t => t == a) = l.indexOf a := rfl
  simp only [findIndexJs, hfi, List.indexOf_eq_length.2 h, lt_irrefl, if_false]

theorem findIndexJs_cases (p : ShapeWithColor → Bool) (l : List ShapeWithColor) :
    findIndexJs p l = -1 ∨
      ∃ n : Nat, findIndexJs p l = (n : Int) ∧ n < l.length := by
  by_cases h : l.findIdx p < l.length
  · exact Or.inr ⟨l.findIdx p, by simp [findIndexJs, h], h⟩
  · exact Or.inl (by simp [findIndexJs, h])

/-- C1. For every full index `f` whose shape is visible, the round trip
`toSvgIndex (toShownIndex f)` returns `f`; for every in-range visible
index `v`, the round trip `toShownIndex (toSvgIndex v)` returns `v` —
both computed by identity search over the depth-filtered list, under the
object-identity hypothesis that the records of the list are pairwise
distinct objects. -/
theorem c1_index_roundtrip (l : List ShapeWithColor)
    (hnd : (l.map ShapeWithColor.oid).Nodup) :
    (∀ f : Nat, ∀ hf : f < l.length, (l.get ⟨f, hf⟩).depth ≠ 0 →
      toSvgIndex l (toShownIndex l (f : Int)) = (f : Int)) ∧
    (∀ v : Nat, v < (shownShapes l).length →
      toShownIndex l (toSvgIndex l (v : Int)) = (v : Int)) := by
  have hl : l.Nodup := List.Nodup.of_map _ hnd
  have hls : (shownShapes l).Nodup := hl.filter _
  constructor
  · intro f hf hd
    set a := l.get ⟨f, hf⟩ with ha
    have hmem : a ∈ l := List.get_mem l f hf
    have hshown : a ∈ shownShapes l := mem_shownShapes.2 ⟨hmem, hd⟩
    have h0 : ¬ ((f : Int) < 0) := by omega
    have h1 : toShownIndex l (f : Int) = ((shownShapes l).indexOf a : Int) := by
      rw [toShownIndex, if_neg h0]
      simp only [Int.toNat_natCast]
      rw [List.get?_eq_get hf, ← ha]
      exact findIndexJs_eq_indexOf hshown
    have hv : (shownShapes l).indexOf a < (shownShapes l).length :=
      List.indexOf_lt_length.2 hshown
    have h0v : ¬ (((shownShapes l).indexOf a : Int) < 0) := by omega
    rw [h1, toSvgIndex, if_neg h0v]
    simp only [Int.toNat_natCast]
    rw [List.get?_eq_get hv, List.indexOf_get hv]
    show findIndexJs (fun t => t == a) l = (f : Int)
    rw [findIndexJs_eq_indexOf hmem]
    have h3 : l.indexOf a = f := by
      have := List.indexOf_getElem hl f hf
      simpa [ha, List.get_eq_getElem] using this
    exact_mod_cast h3
  · intro v hv
    set a := (shownShapes l).get ⟨v, hv⟩ with ha
    have hshown : a ∈ shownShapes l := List.get_mem (shownShapes l) v hv
    have hmem : a ∈ l := (mem_shownShapes.1 hshown).1
    have h0 : ¬ ((v : Int) < 0) := by omega
    have h1 : toSvgIndex l (v : Int) = (l.indexOf a : Int) := by
      rw [toSvgIndex, if_neg h0]
      simp only [Int.toNat_natCast]
      rw [List.get?_eq_get hv, ← ha]
      exact findIndexJs_eq_indexOf hmem
    have hF : l.indexOf a < l.length := List.indexOf_lt_length.2 hmem
    have h0F : ¬ ((l.indexOf a : Int) < 0) := by omega
    rw [h1, toShownIndex, if_neg h0F]
    simp only [Int.toNat_natCast]
    rw [List.get?_eq_get hF, List.indexOf_get hF]
    show findIndexJs (fun t => t == a) (shownShapes l) = (v : Int)
    rw [findIndexJs_eq_indexOf hshown]
    have h3 : (shownShapes l).indexOf a = v := by
      have := List.indexOf_getElem hls v hv
      simpa [ha, List.get_eq_getElem] using this
    exact_mod_cast h3

/-- A concrete sample list: three freshly allocated records with depths
`2`, `0`, `1` — the middle one hidden. -/
def sampleShapes : List ShapeWithColor :=
  [⟨0, 0, 2, 0⟩, ⟨1, 0, 0, 0⟩, ⟨2, 0, 1, 0⟩]

/-- Witness for C1 at `sampleShapes`, full index `2` (visible, maps to
visible index `1`) and visible index `1`. -/
theorem c1_index_roundtrip_witness :
    toSvgIndex sampleShapes (toShownIndex sampleShapes 2) = 2 ∧
    toShownIndex sampleShapes (toSvgIndex sampleShapes 1) = 1 := by
  have h := c1_index_roundtrip sampleShapes (by decide)
  exact ⟨h.1 2 (by decide) (by decide), h.2 1 (by decide)⟩




/- ### C2: clamping -/

theorem clampValue_cases (lo hi x : Rat) (hlh : lo ≤ hi) :
    clampValue lo hi x = lo ∨ clampValue lo hi x = hi ∨ clampValue lo hi x = x := by
  unfold clampValue
  rcases le_total hi x with h | h
  · rw [min_eq_left h, max_eq_right hlh]
    exact Or.inr (Or.inl rfl)
  · rw [min_eq_right h]
    rcases le_total lo x with h2 | h2
    · rw [max_eq_right h2]
      exact Or.inr (Or.inr rfl)
    · rw [max_eq_left h2]
      exact Or.inl rfl

/-- C2. In-range writes: `setDepth` stores the value clamped to
`[0, 10]` and `setStartZ` the value clamped to `[-10, 10]`; the bounds
hold for every input; the three concrete inputs of the claim clamp to
`0`, `10` and `-10`; and both clamps respect the `0.1` step grid. -/
theorem c2_clamp_behavior (l : List ShapeWithColor) (f : Nat) (x : Rat)
    (hf : f < l.length) :
    ((setDepth l f x).get? f =
      some { l.get ⟨f, hf⟩ with depth := clampValue 0 10 x }) ∧
    (0 ≤ clampValue 0 10 x ∧ clampValue 0 10 x ≤ 10) ∧
    ((setStartZ l f x).get? f =
      some { l.get ⟨f, hf⟩ with startZ := clampValue (-10) 10 x }) ∧
    (-10 ≤ clampValue (-10) 10 x ∧ clampValue (-10) 10 x ≤ 10) ∧
    clampValue 0 10 (-5) = 0 ∧ clampValue 0 10 99 = 10 ∧
    clampValue (-10) 10 (-99) = -10 ∧
    (∀ k : Int, x = (k : Rat) / 10 →
      (∃ m : Int, clampValue 0 10 x = (m : Rat) / 10) ∧
      (∃ m : Int, clampValue (-10) 10 x = (m : Rat) / 10)) := by
  refine ⟨?_, ⟨le_max_left _ _, max_le (by norm_num) (min_le_left _ _)⟩,
    ?_, ⟨le_max_left _ _, max_le (by norm_num) (min_le_left _ _)⟩,
    by decide, by decide, by decide, ?_⟩
  · rw [setDepth, List.get?_eq_get hf, List.get?_set_eq_of_lt _ hf]
  · rw [setStartZ, List.get?_eq_get hf, List.get?_set_eq_of_lt _ hf]
  · intro k hk
    constructor
    · rcases clampValue_cases 0 10 x (by norm_num) with h | h | h
      · exact ⟨0, by rw [h]; norm_num⟩
      · exact ⟨100, by rw [h]; norm_num⟩
      · exact ⟨k, by rw [h, hk]⟩
    · rcases clampValue_cases (-10) 10 x (by norm_num) with h | h | h
      · exact ⟨-100, by rw [h]; norm_num⟩
      · exact ⟨100, by rw [h]; norm_num⟩
      · exact ⟨k, by rw [h, hk]⟩

/-- Witness for C2: at `sampleShapes`, index `0`, input `-5`, the stored
depth is the clamped `0`. -/
theorem c2_clamp_behavior_witness :
    (setDepth sampleShapes 0 (-5)).get? 0 = some ⟨0, 0, 0, 0⟩ := by
  have h := (c2_clamp_behavior sampleShapes 0 (-5) (by decide)).1
  exact h.trans (by decide)

/- ### C3: document load lifecycle -/

/-- A concrete state with an active selection, an active editing index
and the export flag raised. -/
def c3SampleState : SvgTo3DState :=
  { fileName := "a.svg"
    svgShapes := sampleShapes
    svgCode := ""
    selectedShapeIndex := some 0
    editingInputIndex := some 2
    isExporting := true
    isDefaultSvg := false
    size := 5 }

/-- Counterexample to C3 as stated: loading a new document through
`mountSVG` does not reset the selection index, the editing index or the
export flag — at `c3SampleState` all three survive the load. -/
theorem c3_counterexample :
    (mountSVG c3SampleState []).selectedShapeIndex ≠ none ∧
    (mountSVG c3SampleState []).editingInputIndex ≠ none ∧
    (mountSVG c3SampleState []).isExporting ≠ false := by
  refine ⟨?_, ?_, ?_⟩ <;> decide

/-- C3 amended: `mountSVG` replaces the shape list wholesale, clears the
default-document flag, and resets the scale target to its default, but
leaves the selection index, the editing index and the export flag
unchanged; it is `handleClose` that resets both indices to none, clears
the export flag, empties the list and resets the scale target. -/
theorem c3_load_amended (st : SvgTo3DState) (newShapes : List ShapeWithColor) :
    (mountSVG st newShapes).svgShapes = newShapes ∧
    (mountSVG st newShapes).isDefaultSvg = false ∧
    (mountSVG st newShapes).size = defaultSize ∧
    (mountSVG st newShapes).selectedShapeIndex = st.selectedShapeIndex ∧
    (mountSVG st newShapes).editingInputIndex = st.editingInputIndex ∧
    (mountSVG st newShapes).isExporting = st.isExporting ∧
    (handleClose st).svgShapes = [] ∧
    (handleClose st).selectedShapeIndex = none ∧
    (handleClose st).editingInputIndex = none ∧
    (handleClose st).isExporting = false ∧
    (handleClose st).size = defaultSize := by
  refine ⟨?_, ?_, ?_, ?_, ?_, ?_, ?_, ?_, ?_, ?_, ?_⟩ <;> rfl

/- ### C4: the selection read -/

/-- C4. The selection read returns `NONE` whenever `isExporting` is
set, regardless of the hovered or editing index; otherwise a set
editing index is the one formatted (editing takes priority over hover),
and only with no editing index is the hovered index formatted. -/
theorem c4_selection_read (st : SvgTo3DState) :
    (st.isExporting = true → selectedShownShapeIndexGet st = none) ∧
    (st.isExporting = false → ∀ e : Int, st.editingInputIndex = some e →
      selectedShownShapeIndexGet st = formatSelectedShapeIndex st.svgShapes (some e)) ∧
    (st.isExporting = false → st.editingInputIndex = none →
      selectedShownShapeIndexGet st = formatSelectedShapeIndex st.svgShapes st.selectedShapeIndex) := by
  refine ⟨fun h => ?_, fun h e he => ?_, fun h he => ?_⟩
  · simp [selectedShownShapeIndexGet, h]
  · simp [selectedShownShapeIndexGet, h, he]
  · simp [selectedShownShapeIndexGet, h, he]

/-- Witness for C4 at `c3SampleState` with the export flag lowered:
editing index `2` wins over hovered index `0` and is formatted to
visible index `1`. -/
theorem c4_selection_read_witness :
    selectedShownShapeIndexGet { c3SampleState with isExporting := false } = some 1 ∧
    selectedShownShapeIndexGet c3SampleState = none := by
  have h1 := (c4_selection_read { c3SampleState with isExporting := false }).2.1 rfl 2 rfl
  have h2 := (c4_selection_read c3SampleState).1 rfl
  exact ⟨h1.trans (by decide), h2⟩

/- ### C5: the selection write -/

/-- C5. A selection write is ignored (no state change) when
`isDefaultSvg` or `isExporting` holds; otherwise it stores the
`toSvgIndex` conversion of the incoming visible index as the hovered
full index, and changes nothing else. -/
theorem c5_selection_write (st : SvgTo3DState) (index : Int) :
    ((st.isDefaultSvg = true ∨ st.isExporting = true) →
      selectedShownShapeIndexSet st index = st) ∧
    (st.isDefaultSvg = false → st.isExporting = false →
      selectedShownShapeIndexSet st index =
        { st with selectedShapeIndex := some (toSvgIndex st.svgShapes index) }) := by
  constructor
  · rintro (h | h) <;> simp [selectedShownShapeIndexSet, h]
  · intro h1 h2
    simp [selectedShownShapeIndexSet, h1, h2]

/-- Witness for C5: with both flags down the write stores the converted
full index `2` of visible index `1`; with the export flag up it is a
no-op. -/
theorem c5_selection_write_witness :
    selectedShownShapeIndexSet { c3SampleState with isExporting := false } 1 =
      { c3SampleState with isExporting := false, selectedShapeIndex := some 2 } ∧
    selectedShownShapeIndexSet c3SampleState 1 = c3SampleState := by
  have h1 := (c5_selection_write { c3SampleState with isExporting := false } 1).2 rfl rfl
  have h2 := (c5_selection_write c3SampleState 1).1 (Or.inr rfl)
  exact ⟨h1.trans (by decide), h2⟩

/- ### C6: hidden shapes are invisible to the mapping -/

/-- C6. A shape with `depth == 0` has no visible index: the identity
search misses (`-1`), the formatted read is `NONE`, the record is not
in the visible view, the visible view is the depth-filtered subsequence
of the full list in order, and (for lists with the clamp invariant
`0 ≤ depth`) filtering nonzero depth is filtering positive depth. -/
theorem c6_hidden_shape (l : List ShapeWithColor) (f : Nat)
    (hf : f < l.length) (hd : (l.get ⟨f, hf⟩).depth = 0) :
    formatSelectedShapeIndex l (some (f : Int)) = none ∧
    toShownIndex l (f : Int) = -1 ∧
    l.get ⟨f, hf⟩ ∉ shownShapes l ∧
    shownShapes l = l.filter (fun s => s.depth != 0) ∧
    ((∀ s ∈ l, 0 ≤ s.depth) →
      shownShapes l = l.filter fun s => decide (0 < s.depth)) := by
  have hnot : l.get ⟨f, hf⟩ ∉ shownShapes l := by
    intro hmem
    exact absurd hd (mem_shownShapes.1 hmem).2
  have hts : toShownIndex l (f : Int) = -1 := by
    have h0 : ¬ ((f : Int) < 0) := by omega
    rw [toShownIndex, if_neg h0]
    simp only [Int.toNat_natCast]
    rw [List.get?_eq_get hf]
    exact findIndexJs_of_not_mem hnot
  refine ⟨?_, hts, hnot, rfl, ?_⟩
  · simp [formatSelectedShapeIndex, hts]
  · intro hpos
    exact List.filter_congr fun s hs => by
      rcases eq_or_lt_of_le (hpos s hs) with h | h
      · simp [← h]
      · simp [bne_iff_ne, ne_of_gt h, h]

/-- Witness for C6 at `sampleShapes`, full index `1` (depth `0`). -/
theorem c6_hidden_shape_witness :
    formatSelectedShapeIndex sampleShapes (some 1) = none ∧
    toShownIndex sampleShapes 1 = -1 := by
  have h := c6_hidden_shape sampleShapes 1 (by decide) (by decide)
  exact ⟨h.1, h.2.1⟩

/- ### C7: document validity -/

def apostropheChar : Char := Char.ofNat 39

def emptyDoc : String := ""

/-- The claimed accepting example `<svg viewBox='0 0 10 10'></svg>`. -/
def exGoodDoc : String :=
  "<svg viewBox=" ++ String.mk [apostropheChar] ++ "0 0 10 10" ++
    String.mk [apostropheChar] ++ "></svg>"

def exNotClosedDoc : String := "<svg></svg><notclosed"

/-- Root tags present but no sizing attribute anywhere. -/
def exNoSizeDoc : String := "<svg>some shapes</svg>"

/-- C7. The source's `isValidSvg` agrees with the spec-side
formulation on every input, and behaves as claimed on the four concrete
documents: empty, the well-formed example, the tag-order violation, and
the document without any sizing attribute. -/
theorem c7_isValidSvg_spec :
    (∀ s : String, isValidSvg s = specIsValidDocument s) ∧
    isValidSvg emptyDoc = false ∧
    isValidSvg exGoodDoc = true ∧
    isValidSvg exNotClosedDoc = false ∧
    isValidSvg exNoSizeDoc = false := by
  refine ⟨fun s => ?_, by decide, by decide, by decide, by decide⟩
  unfold isValidSvg specIsValidDocument
  cases hws : wsOnly s with
  | true => rfl
  | false =>
    simp only [if_neg (by simp [hws] : ¬ wsOnly s = true)]
    rcases ho : findSub svgOpenNeedle.data (lowerStr s).data with _ | o <;>
      rcases hc : findSub svgCloseNeedle.data (lowerStr s).data with _ | c <;>
        simp only [indexOfJs, includesJs, ho, hc]
    · rfl
    · rfl
    · simp
    · have h1 : ((o : Int) != -1) = true := by simp [bne_iff_ne]
      have h2 : ((c : Int) != -1) = true := by simp [bne_iff_ne]
      have h3 : decide ((o : Int) < (c : Int)) = decide (o < c) := by
        simp [Nat.cast_lt]
      rw [h1, h2, h3]
      simp

/- ### C8: raster-fallback compositing -/

def svgNoMatchSample : String := "no root tag here"

def c8TracedSample : String := "<svg>P</svg>"

/-- The document `convertBitmapToSvg` must rebuild for a 100 by 50 image
whose trace content is `P`. -/
def c8ExpectedOutput : String :=
  "<svg width=\"116\" height=\"66\" viewBox=\"0 0 116 66\">\n  <rect x=\"0\" y=\"0\" width=\"116\" height=\"66\" rx=\"8\" ry=\"8\" fill=\"white\"/>\n  <g transform=\"translate(8,8)\">\n    P\n  </g>\n</svg>"

set_option maxRecDepth 4000 in
/-- C8. The rebuilt document is the background-plus-translated-group
template at canvas size `(w + 16) by (h + 16)` (padding 8 per side),
corner radius 8, translation `(8, 8)`, around the extracted trace
content; extraction yields the empty string when the root-tag pattern
does not match; and the `100 by 50` instance produces exactly the
`116 by 66` document. -/
theorem c8_bitmap_compositing :
    (∀ w h : Nat, ∀ t : String, convertBitmapToSvg w h t =
      svgDocTemplate (w + 16) (h + 16) 8 8 (extractContent t)) ∧
    extractContent svgNoMatchSample = "" ∧
    convertBitmapToSvg 100 50 c8TracedSample = c8ExpectedOutput := by
  refine ⟨fun w h t => ?_, by decide, by decide⟩
  rfl

/- ### C9: the bore subtraction -/

/-- C9. `subtractCylinder` hands the evaluator the input solid and a
fresh cylinder of radius `2.5`, height `100` and `32` radial segments,
with both operands' world matrices finalized, the cylinder left at the
local origin, the operation being subtraction, and the evaluator's
result returned unmodified. -/
theorem c9_subtract_cylinder (g : Nat) :
    (subtractCylinder g).operandA.geometry = BrushGeometry.input g ∧
    (subtractCylinder g).operandA.matrixWorldUpdated = true ∧
    (subtractCylinder g).operandB.geometry =
      BrushGeometry.cylinder (5 / 2) (5 / 2) 100 32 ∧
    (subtractCylinder g).operandB.matrixWorldUpdated = true ∧
    (subtractCylinder g).operandB.position = (0, 0, 0) ∧
    (subtractCylinder g).operation = CsgOperation.subtraction ∧
    subtractCylinder g =
      Evaluator.evaluate (subtractCylinder g).operandA (subtractCylinder g).operandB
        CsgOperation.subtraction :=
  ⟨rfl, rfl, rfl, rfl, rfl, rfl, rfl⟩

/- ### C10: totality of the selection read -/

theorem toShownIndex_total (l : List ShapeWithColor) (i : Int) :
    toShownIndex l i = -1 ∨
      ∃ n : Nat, toShownIndex l i = (n : Int) ∧ n < (shownShapes l).length := by
  by_cases h : i < 0
  · left
    simp [toShownIndex, h]
  · rw [toShownIndex, if_neg h]
    rcases hg : l.get? i.toNat with _ | s
    · exact Or.inl rfl
    · exact findIndexJs_cases (fun t => t == s) (shownShapes l)

theorem formatSelectedShapeIndex_total (l : List ShapeWithColor) (idx : Option Int) :
    formatSelectedShapeIndex l idx = none ∨
      ∃ n : Nat, formatSelectedShapeIndex l idx = some (n : Int) ∧
        n < (shownShapes l).length := by
  cases idx with
  | none => exact Or.inl rfl
  | some i =>
    rcases toShownIndex_total l i with h | ⟨n, hn, hlt⟩
    · left
      simp [formatSelectedShapeIndex, h]
    · right
      have hne : ((n : Int) == -1) = false := by simp
      exact ⟨n, by simp [formatSelectedShapeIndex, hn, hne], hlt⟩

/-- C10. For every stored hovered and editing index — the `-1`
sentinel and out-of-range values included — the selection read is
total: it returns `NONE` or a valid index into the visible view, never
`-1` and never an error. -/
theorem c10_selection_read_total (st : SvgTo3DState) :
    selectedShownShapeIndexGet st = none ∨
      ∃ n : Nat, selectedShownShapeIndexGet st = some (n : Int) ∧
        n < (shownShapes st.svgShapes).length := by
  by_cases h : st.isExporting = true
  · left
    simp [selectedShownShapeIndexGet, h]
  · have hb : st.isExporting = false := by simpa using h
    cases he : st.editingInputIndex with
    | some e =>
      have := formatSelectedShapeIndex_total st.svgShapes (some e)
      simpa [selectedShownShapeIndexGet, hb, he] using this
    | none =>
      have := formatSelectedShapeIndex_total st.svgShapes st.selectedShapeIndex
      simpa [selectedShownShapeIndexGet, hb, he] using this
